import Mathlib

/-!
Verification of the constellix-go-client request pipeline (src/client/client.go).

The Go source is shallowly embedded: pure string manipulation becomes Lean
functions on String and List Char; wall-clock time and the HTTP transport are
explicit parameters (the current epoch milliseconds, and the HttpResponse that
the transport returned); a Go runtime panic (nil-pointer dereference, failed
type assertion) is the explicit result value OpResult.crash.
-/

namespace Constellix

/-! ## JSON values and HTTP responses

A response body is carried both as raw text (what checkForErrorsChecks reads)
and as the outcome of Go json.Unmarshal of that text into a
map of string to interface (what checkForErrors reads): some fields when the
body is a JSON object with those fields, none when the body is not valid JSON
or not a JSON object, in which case json.Unmarshal leaves the Go map nil. -/

inductive Json where
  | null : Json
  | bool (b : Bool) : Json
  | num (q : ℚ) : Json
  | str (s : String) : Json
  | arr (elems : List Json) : Json
  | obj (fields : List (String × Json)) : Json

structure HttpResponse where
  status : Nat
  body : String
  bodyJson : Option (List (String × Json))

/-- Result of one client operation, as seen by the caller: a response with nil
error, a response with a non-nil error carrying a message, or a runtime crash
of the Go process (panic). -/
inductive OpResult where
  | ok : OpResult
  | remoteErr (msg : String) : OpResult
  | crash : OpResult
deriving DecidableEq

/-- Go map indexing data[key]: the stored value, or the nil interface value
when the key is absent (modelled as none). The association list stands for
the map, so keys are looked up by first occurrence. -/
def lookupField : List (String × Json) → String → Option Json
  | [], _ => none
  | (k, v) :: rest, key => if k = key then some v else lookupField rest key

/-- The loop over the asserted errors slice: each element goes through the
Go type assertion val.(string), which panics (none) on a non-string. -/
def asStringList : List Json → Option (List String)
  | [] => some []
  | Json.str s :: rest => (asStringList rest).map (fun l => s :: l)
  | _ :: _ => none

/-- Wrapper for data[errors] in checkForErrors, lines 199-203: when
json.Unmarshal failed the map data is nil and the lookup yields nil. -/
def errorsValue (resp : HttpResponse) : Option Json :=
  match resp.bodyJson with
  | none => none
  | some fields => lookupField fields "errors"

/-! ## Error normalizers (lines 191-226) -/

/-- Primary-API error normalizer checkForErrors, lines 191-213. Status 200
returns nil. Otherwise the body is unmarshalled, data[errors] goes through
the unchecked Go type assertion to a slice of interface values (crash when it
is absent or not a JSON array), and every element through val.(string)
(crash on a non-string); the strings are concatenated in order into the
error message. -/
def checkForErrors (resp : HttpResponse) : OpResult :=
  if resp.status = 200 then OpResult.ok
  else
    match errorsValue resp with
    | some (Json.arr xs) =>
      match asStringList xs with
      | some strs => OpResult.remoteErr (String.join strs)
      | none => OpResult.crash
    | _ => OpResult.crash

/-- Secondary-API error normalizer checkForErrorsChecks, lines 215-226:
statuses 200, 201, 202 return nil; any other status returns the raw body
text verbatim as the error message, with no JSON parsing. -/
def checkForErrorsChecks (resp : HttpResponse) : OpResult :=
  if resp.status ≠ 200 ∧ resp.status ≠ 201 ∧ resp.status ≠ 202 then
    OpResult.remoteErr resp.body
  else OpResult.ok

/-! ## Rate limiter and client configuration (lines 23-86)

The limiter from golang.org/x/time/rate is modelled by the argument of
rate.Every (a time.Duration in nanoseconds) together with the burst. -/

/-- Modelled from golang.org/x/time/rate: Every(interval) is the infinite
limit when interval ≤ 0, and otherwise refills one token per interval. -/
inductive RateLimit where
  | inf : RateLimit
  | every (nanos : ℤ) : RateLimit
deriving DecidableEq

def rateEvery (intervalNanos : ℤ) : RateLimit :=
  if intervalNanos ≤ 0 then RateLimit.inf else RateLimit.every intervalNanos

structure Limiter where
  limit : RateLimit
  burst : Nat
deriving DecidableEq

/-- Minimum time that the gate enforces between two consecutive admissions,
in nanoseconds, for a burst-1 limiter; an absent or infinite gate enforces
none. -/
def gateMinSeparationNanos : Option Limiter → ℤ
  | none => 0
  | some l =>
    match l.limit with
    | RateLimit.inf => 0
    | RateLimit.every n => n

structure Client where
  rateLimiter : Option Limiter
  apiKey : String
  secretKey : String
  insecure : Bool
  proxyUrl : String
deriving DecidableEq

def Insecure (insecure : Bool) : Client → Client :=
  fun c => { c with insecure := insecure }

def ProxyUrl (pUrl : String) : Client → Client :=
  fun c => { c with proxyUrl := pUrl }

/-- Go conversion from a float to int64, as in time.Duration(f): truncation
toward zero. The float32 argument is modelled as a rational; every concrete
value used below is exactly representable in float32. -/
def goFloatToInt64 (x : ℚ) : ℤ := Int.tdiv x.num (x.den : ℤ)

/-- Option RequestInterval, lines 51-58: when pInterval ≥ 0, install
rate.NewLimiter(rate.Every(time.Duration(pInterval*1000)), 1). The Duration
argument is pInterval*1000 interpreted in nanoseconds, time.Duration being
an int64 count of nanoseconds. -/
def RequestInterval (pInterval : ℚ) : Client → Client :=
  fun c =>
    if 0 ≤ pInterval then
      { c with rateLimiter := some ⟨rateEvery (goFloatToInt64 (pInterval * 1000)), 1⟩ }
    else c

/-- Constructor initClient, lines 60-80: zero-valued client with the
credentials set, then each option applied in order. The http transport
configuration (TLS, proxy) is not needed by any claim and is omitted. -/
def initClient (apiKey secretKey : String) (options : List (Client → Client)) : Client :=
  options.foldl (fun c o => o c)
    { rateLimiter := none, apiKey := apiKey, secretKey := secretKey,
      insecure := false, proxyUrl := "" }

/-- GetClient, lines 83-86, delegates to initClient (the package-level
singleton assignment has no bearing on the returned value). -/
def GetClient (apiKey secretKey : String) (options : List (Client → Client)) : Client :=
  initClient apiKey secretKey options

/-! ## Endpoint resolution (lines 158-166, 231-237, 266-272, 303-311)

All four operations contain the identical code: split the endpoint on the
slash, compare segment index 2 with the secondary host, and either keep the
endpoint verbatim (flag true) or prepend the base URL (flag false). -/

def BaseURL : String := "https://api.dns.constellix.com/"

def secondaryHost : String := "api.sonar.constellix.com"

/-- Model of Go strings.Split(s, sep) for the one-character separator used by
the source: split at every occurrence, keeping empty segments, never
returning an empty list. -/
def splitOnCharAux (sep : Char) : List Char → List Char → List (List Char)
  | [], acc => [acc.reverse]
  | x :: xs, acc =>
    if x = sep then acc.reverse :: splitOnCharAux sep xs []
    else splitOnCharAux sep xs (x :: acc)

def splitOnChar (sep : Char) (l : List Char) : List (List Char) :=
  splitOnCharAux sep l []

/-- The classification test shared by the four operations:
len(urlArr) > 2 && urlArr[2] == "api.sonar.constellix.com" with
urlArr := strings.Split(endpoint, "/"). -/
def isSecondary (endpoint : String) : Bool :=
  let urlArr := splitOnChar '/' endpoint.data
  decide (2 < urlArr.length ∧ urlArr.getD 2 [] = secondaryHost.data)

inductive Target where
  | primary : Target
  | secondary : Target
deriving DecidableEq

/-- URL resolution and target classification, identical in Save, GetbyId,
DeletebyId and UpdatebyID: a secondary endpoint is used verbatim, otherwise
the fixed base URL is prepended (url = fmt.Sprintf of BaseURL then endpoint)
and the endpoint is primary (flag false). -/
def resolveEndpoint (endpoint : String) : String × Target :=
  if isSecondary endpoint then (endpoint, Target.secondary)
  else (BaseURL ++ endpoint, Target.primary)

/-! ## Token generation and request construction (lines 117-150) -/

/-- Model of strconv.FormatInt(n, 10) for the nonnegative epoch value. -/
def formatInt (n : Nat) : String := Nat.repr n

/-- Decimal digit characters of n, most significant first: the reference
shape of formatInt used by the proofs below (proved equal to the characters
of Nat.repr). -/
def decList (n : Nat) : List Char :=
  if h : n < 10 then [Nat.digitChar n]
  else decList (n / 10) ++ [Nat.digitChar (n % 10)]
termination_by n
decreasing_by
  exact Nat.div_lt_self (by omega) (by omega)

/-- UTF-8 bytes of a Go string conversion to a byte slice. -/
def strBytes (s : String) : List Nat :=
  s.toUTF8.data.toList.map (fun b => b.toNat)

/-! SHA-1 and HMAC, modelled from Go crypto/sha1 and crypto/hmac (external
standard library code, reproduced by the published algorithms): message and
digest are byte lists, words are Nat reduced mod 2^32. -/

def w32 : Nat := 4294967296

def rotl32 (k n : Nat) : Nat :=
  ((n * 2 ^ k) + (n / 2 ^ (32 - k))) % w32

def wordsOfBytes : List Nat → List Nat
  | b1 :: b2 :: b3 :: b4 :: rest =>
    (((b1 * 256 + b2) * 256 + b3) * 256 + b4) :: wordsOfBytes rest
  | _ => []

def bytesOfWord (n : Nat) : List Nat :=
  [n / 16777216 % 256, n / 65536 % 256, n / 256 % 256, n % 256]

/-- SHA-1 message schedule: extend 16 words to 80. -/
def sha1Extend (ws : Array Nat) : Array Nat :=
  (List.range 64).foldl
    (fun a _ =>
      let i := a.size
      let w := Nat.xor (Nat.xor (a.getD (i - 3) 0) (a.getD (i - 8) 0))
                 (Nat.xor (a.getD (i - 14) 0) (a.getD (i - 16) 0))
      a.push (rotl32 1 w)) ws

def sha1F (t b c d : Nat) : Nat :=
  if t < 20 then Nat.lor (Nat.land b c) (Nat.land ((w32 - 1) - b) d)
  else if t < 40 then Nat.xor (Nat.xor b c) d
  else if t < 60 then Nat.lor (Nat.lor (Nat.land b c) (Nat.land b d)) (Nat.land c d)
  else Nat.xor (Nat.xor b c) d

def sha1K (t : Nat) : Nat :=
  if t < 20 then 1518500249
  else if t < 40 then 1859775393
  else if t < 60 then 2400959708
  else 3395469782

def sha1Compress (h : Nat × Nat × Nat × Nat × Nat) (block : List Nat) :
    Nat × Nat × Nat × Nat × Nat :=
  let ws := sha1Extend (Array.mk (wordsOfBytes block))
  let (h0, h1, h2, h3, h4) := h
  let step := fun (st : Nat × Nat × Nat × Nat × Nat) (t : Nat) =>
    let (a, b, c, d, e) := st
    let tmp := (rotl32 5 a + sha1F t b c d + e + sha1K t + ws.getD t 0) % w32
    (tmp, a, rotl32 30 b, c, d)
  let (a, b, c, d, e) := (List.range 80).foldl step (h0, h1, h2, h3, h4)
  ((h0 + a) % w32, (h1 + b) % w32, (h2 + c) % w32, (h3 + d) % w32, (h4 + e) % w32)

def chunk64 : List Nat → List (List Nat)
  | [] => []
  | x :: xs => ((x :: xs).take 64) :: chunk64 ((x :: xs).drop 64)
termination_by l => l.length
decreasing_by
  simp only [List.length_drop, List.length_cons]
  omega

/-- SHA-1 padding: the 0x80 byte, zeros to 56 mod 64, then the bit length in
8 big-endian bytes. -/
def sha1Pad (msg : List Nat) : List Nat :=
  let len := msg.length
  let zeros := (55 + 64 - len % 64) % 64
  let bitLen := len * 8
  msg ++ 128 :: List.replicate zeros 0 ++
    [bitLen / 2 ^ 56 % 256, bitLen / 2 ^ 48 % 256, bitLen / 2 ^ 40 % 256,
     bitLen / 2 ^ 32 % 256, bitLen / 2 ^ 24 % 256, bitLen / 2 ^ 16 % 256,
     bitLen / 2 ^ 8 % 256, bitLen % 256]

def sha1 (msg : List Nat) : List Nat :=
  let init := (1732584193, 4023233417, 2562383102, 271733878, 3285377520)
  let (h0, h1, h2, h3, h4) := (chunk64 (sha1Pad msg)).foldl sha1Compress init
  bytesOfWord h0 ++ bytesOfWord h1 ++ bytesOfWord h2 ++ bytesOfWord h3 ++ bytesOfWord h4

/-- HMAC with SHA-1, block size 64, as in Go crypto/hmac: long keys are
hashed, keys are zero-padded to the block size, then the nested hash of the
ipad and opad xored keys. -/
def hmacSha1 (key msg : List Nat) : List Nat :=
  let k0 := if 64 < key.length then sha1 key else key
  let kp := k0 ++ List.replicate (64 - k0.length) 0
  let ipad := kp.map (fun b => Nat.xor b 54)
  let opad := kp.map (fun b => Nat.xor b 92)
  sha1 (opad ++ sha1 (ipad ++ msg))

/-- Standard base64 alphabet of encoding/base64 StdEncoding. -/
def b64Alphabet : String :=
  "ABCDEFGHIJKLMNOPQRSTUVWXYZabcdefghijklmnopqrstuvwxyz0123456789+/"

def b64Char (i : Nat) : Char :=
  match b64Alphabet.data.get? i with
  | some c => c
  | none => 'A'

/-- Base64 standard encoding with padding, three input bytes to four output
characters. -/
def base64Chars : List Nat → List Char
  | b1 :: b2 :: b3 :: rest =>
    b64Char (b1 / 4) :: b64Char (b1 % 4 * 16 + b2 / 16) ::
      b64Char (b2 % 16 * 4 + b3 / 64) :: b64Char (b3 % 64) :: base64Chars rest
  | [b1, b2] => [b64Char (b1 / 4), b64Char (b1 % 4 * 16 + b2 / 16), b64Char (b2 % 16 * 4), '=']
  | [b1] => [b64Char (b1 / 4), b64Char (b1 % 4 * 16), '=', '=']
  | [] => []

def base64Encode (bs : List Nat) : String := (base64Chars bs).asString

/-- Token generator getToken, lines 117-129: the epoch milliseconds are
rendered in decimal, HMAC-SHA1 keyed by the secret is applied to the bytes
of that decimal string, the digest is base64-encoded, and the token is
apiKey, digest and timestamp joined by colons. Wall-clock time is the
explicit parameter nowMillis. -/
def getToken (apiKey secretKey : String) (nowMillis : Nat) : String :=
  let epochTime := formatInt nowMillis
  let sha := base64Encode (hmacSha1 (strBytes secretKey) (strBytes epochTime))
  apiKey ++ ":" ++ sha ++ ":" ++ epochTime

structure Request where
  method : String
  url : String
  body : Option String
  headers : List (String × String)
deriving DecidableEq

/-- Request construction makeRequest, lines 131-150: a body buffer is
attached only for POST and PUT (nil body otherwise), and the two headers are
set: the content type and the freshly generated security token. -/
def makeRequest (c : Client) (nowMillis : Nat) (method endpoint : String)
    (payload : String) : Request :=
  { method := method
    url := endpoint
    body := if method = "POST" ∨ method = "PUT" then some payload else none
    headers := [("Content-Type", "application/json"),
                ("x-cns-security-token", getToken c.apiKey c.secretKey nowMillis)] }

/-! ## The four operations (lines 152-189, 228-263, 265-296, 298-336)

The payloads of Save and UpdatebyID arrive already marshalled (JSON
marshalling of arbitrary Go values is outside the claims). Each operation is
split into the request it constructs and the outcome it returns once the
transport produced a response. -/

def saveRequest (c : Client) (nowMillis : Nat) (endpoint payload : String) : Request :=
  makeRequest c nowMillis "POST" (resolveEndpoint endpoint).1 payload

def getByIdRequest (c : Client) (nowMillis : Nat) (endpoint : String) : Request :=
  makeRequest c nowMillis "GET" (resolveEndpoint endpoint).1 ""

def deleteByIdRequest (c : Client) (nowMillis : Nat) (endpoint : String) : Request :=
  makeRequest c nowMillis "DELETE" (resolveEndpoint endpoint).1 ""

def updateByIdRequest (c : Client) (nowMillis : Nat) (endpoint payload : String) : Request :=
  makeRequest c nowMillis "PUT" (resolveEndpoint endpoint).1 payload

/-- Save, lines 152-189. Line 175 calls c.rateLimiter.Wait(ctx) with no nil
check: on a client whose rateLimiter is nil this dereferences a nil pointer
and the process panics. With a limiter present, Wait on a background context
returns nil, and the response goes to checkForErrors when flag is false
(primary) and to checkForErrorsChecks when flag is true (secondary). -/
def Save (c : Client) (endpoint : String) (resp : HttpResponse) : OpResult :=
  match c.rateLimiter with
  | none => OpResult.crash
  | some _ =>
    if isSecondary endpoint then checkForErrorsChecks resp else checkForErrors resp

/-- GetbyId, lines 228-263: the rate-limiter wait is guarded by a nil check
(lines 245-251), so the gate step never crashes and the outcome is the
normalizer selected by the flag. -/
def GetbyId (c : Client) (endpoint : String) (resp : HttpResponse) : OpResult :=
  if isSecondary endpoint then checkForErrorsChecks resp else checkForErrors resp

/-- DeletebyId, lines 265-296: the rate-limiter wait is guarded by a nil
check (lines 281-287), and line 295 returns checkForErrorsChecks(resp)
unconditionally: no flag is computed and the primary normalizer is never
used. -/
def DeletebyId (c : Client) (endpoint : String) (resp : HttpResponse) : OpResult :=
  checkForErrorsChecks resp

/-- UpdatebyID, lines 298-336: nil-guarded rate-limiter wait (lines
319-325), then the normalizer selected by the flag. -/
def UpdatebyID (c : Client) (endpoint : String) (resp : HttpResponse) : OpResult :=
  if isSecondary endpoint then checkForErrorsChecks resp else checkForErrors resp

/-! ## Lemmas about splitting and classification -/

lemma splitOnCharAux_sep_cons (sep : Char) (l acc : List Char) :
    splitOnCharAux sep (sep :: l) acc = acc.reverse :: splitOnCharAux sep l [] := by
  simp [splitOnCharAux]

lemma splitOnCharAux_append_sep (sep : Char) (a l acc : List Char) (h : sep ∉ a) :
    splitOnCharAux sep (a ++ sep :: l) acc =
      (acc.reverse ++ a) :: splitOnCharAux sep l [] := by
  induction a generalizing acc with
  | nil => simp [splitOnCharAux]
  | cons x xs ih =>
    have hx : ¬ x = sep := by
      intro he
      exact h (by simp [he])
    have hxs : sep ∉ xs := fun hm => h (List.mem_cons_of_mem _ hm)
    simp only [List.cons_append, splitOnCharAux, if_neg hx]
    rw [show xs.append (sep :: l) = xs ++ sep :: l from rfl, ih _ hxs]
    simp

lemma splitOnChar_url (scheme host rest : List Char)
    (hs : '/' ∉ scheme) (hh : '/' ∉ host) :
    splitOnChar '/' (scheme ++ ':' :: '/' :: '/' :: (host ++ '/' :: rest)) =
      (scheme ++ [':']) :: [] :: host :: splitOnChar '/' rest := by
  have hs' : '/' ∉ scheme ++ [':'] := by
    intro hm
    rcases List.mem_append.1 hm with hm | hm
    · exact hs hm
    · simp at hm
  have hshape : scheme ++ ':' :: '/' :: '/' :: (host ++ '/' :: rest) =
      (scheme ++ [':']) ++ '/' :: ('/' :: (host ++ '/' :: rest)) := by
    simp
  unfold splitOnChar
  rw [hshape, splitOnCharAux_append_sep _ _ _ _ hs', splitOnCharAux_sep_cons,
    splitOnCharAux_append_sep _ _ _ _ hh]
  simp

lemma data_url (scheme host rest : String) :
    (scheme ++ "://" ++ host ++ "/" ++ rest).data =
      scheme.data ++ ':' :: '/' :: '/' :: (host.data ++ '/' :: rest.data) := by
  have h1 : ("://" : String).data = [':', '/', '/'] := rfl
  have h2 : ("/" : String).data = ['/'] := rfl
  simp [String.data_append, h1, h2]

lemma isSecondary_url (scheme host rest : String)
    (hs : '/' ∉ scheme.data) (hh : '/' ∉ host.data) :
    isSecondary (scheme ++ "://" ++ host ++ "/" ++ rest) = decide (host = secondaryHost) := by
  unfold isSecondary
  rw [data_url, splitOnChar_url scheme.data host.data rest.data hs hh]
  rw [decide_eq_decide]
  constructor
  · intro hand
    exact String.ext (by simpa [List.getD] using hand.2)
  · intro hhost
    refine ⟨by simp [List.length_cons], by simp [List.getD, hhost]⟩

lemma isSecondary_eq_third (e : String) :
    isSecondary e =
      decide ((splitOnChar '/' e.data)[2]? = some secondaryHost.data) := by
  unfold isSecondary
  rcases hsp : splitOnChar '/' e.data with _ | ⟨a, _ | ⟨b, _ | ⟨c, t⟩⟩⟩
  · simp
  · simp
  · simp
  · rw [decide_eq_decide]
    simp only [List.getElem?_cons_succ, List.getElem?_cons_zero, List.getD,
      Option.some_inj, List.length_cons]
    constructor
    · intro hand
      simpa using hand.2
    · intro hc
      exact ⟨by omega, by simpa using hc⟩

/-! ## Claim C5 -/

/-- C5: each operation resolves the URL by the endpoint's host component:
when a URL of the shape scheme://host/rest carries the secondary host
api.sonar.constellix.com it is used verbatim and classified secondary,
otherwise the fixed base URL is prepended and the endpoint is classified
primary; in particular v1/domains becomes
https://api.dns.constellix.com/v1/domains, and all four operations build
their request URL through this same resolution. -/
theorem c5_resolve_url_by_host :
    (∀ scheme host rest : String, '/' ∉ scheme.data → '/' ∉ host.data →
      (host = secondaryHost →
        resolveEndpoint (scheme ++ "://" ++ host ++ "/" ++ rest) =
          (scheme ++ "://" ++ host ++ "/" ++ rest, Target.secondary)) ∧
      (host ≠ secondaryHost →
        resolveEndpoint (scheme ++ "://" ++ host ++ "/" ++ rest) =
          (BaseURL ++ (scheme ++ "://" ++ host ++ "/" ++ rest), Target.primary))) ∧
    resolveEndpoint "https://api.sonar.constellix.com/v1/x" =
      ("https://api.sonar.constellix.com/v1/x", Target.secondary) ∧
    resolveEndpoint "v1/domains" =
      ("https://api.dns.constellix.com/v1/domains", Target.primary) ∧
    (∀ (c : Client) (now : Nat) (e p : String),
      (saveRequest c now e p).url = (resolveEndpoint e).1 ∧
      (getByIdRequest c now e).url = (resolveEndpoint e).1 ∧
      (deleteByIdRequest c now e).url = (resolveEndpoint e).1 ∧
      (updateByIdRequest c now e p).url = (resolveEndpoint e).1) := by
  refine ⟨?_, by decide, by decide, ?_⟩
  · intro scheme host rest hs hh
    constructor
    · intro hhost
      unfold resolveEndpoint
      rw [isSecondary_url scheme host rest hs hh, hhost]
      simp
    · intro hhost
      unfold resolveEndpoint
      rw [isSecondary_url scheme host rest hs hh]
      simp [hhost]
  · intro c now e p
    exact ⟨rfl, rfl, rfl, rfl⟩

/-- Witness for C5 at a concrete secondary URL. -/
theorem c5_resolve_url_by_host_witness :
    resolveEndpoint ("https" ++ "://" ++ "api.sonar.constellix.com" ++ "/" ++ "v1/x") =
      ("https" ++ "://" ++ "api.sonar.constellix.com" ++ "/" ++ "v1/x", Target.secondary) :=
  (c5_resolve_url_by_host.1 "https" "api.sonar.constellix.com" "v1/x"
    (by decide) (by decide)).1 rfl

/-! ## Claim C10 -/

/-- C10: classification is a function of the third slash-separated segment
of the endpoint alone; an endpoint that names the secondary host without a
scheme, such as api.sonar.constellix.com/v1/x, is classified primary and
gets the base URL prepended, and so is any endpoint with fewer than three
slash-separated segments. -/
theorem c10_third_segment_classification :
    (∀ e₁ e₂ : String,
      (splitOnChar '/' e₁.data)[2]? = (splitOnChar '/' e₂.data)[2]? →
      (resolveEndpoint e₁).2 = (resolveEndpoint e₂).2) ∧
    resolveEndpoint "api.sonar.constellix.com/v1/x" =
      ("https://api.dns.constellix.com/api.sonar.constellix.com/v1/x", Target.primary) ∧
    (∀ e : String, (splitOnChar '/' e.data).length ≤ 2 →
      (resolveEndpoint e).2 = Target.primary) := by
  refine ⟨?_, by decide, ?_⟩
  · intro e₁ e₂ h
    unfold resolveEndpoint
    rw [isSecondary_eq_third, isSecondary_eq_third, h]
    by_cases hc : (splitOnChar '/' e₂.data)[2]? = some secondaryHost.data
    · simp [hc]
    · simp [hc]
  · intro e hlen
    have hfalse : isSecondary e = false := by
      unfold isSecondary
      apply decide_eq_false
      rintro ⟨h2, -⟩
      omega
    unfold resolveEndpoint
    simp [hfalse]

/-- Witness for C10 at a concrete short endpoint. -/
theorem c10_third_segment_classification_witness :
    (resolveEndpoint "v1/domains").2 = Target.primary :=
  c10_third_segment_classification.2.2 "v1/domains" (by decide)

/-! ## Claim C6 -/

/-- C6: under the primary policy a response succeeds exactly when the
status is 200, and a failing response whose body is JSON with an errors
field holding a sequence of strings yields an error message that is the
concatenation of those strings in order. -/
theorem c6_primary_policy :
    ∀ r : HttpResponse,
      (checkForErrors r = OpResult.ok ↔ r.status = 200) ∧
      (∀ (fields : List (String × Json)) (xs : List Json) (strs : List String),
        r.status ≠ 200 → r.bodyJson = some fields →
        lookupField fields "errors" = some (Json.arr xs) →
        asStringList xs = some strs →
        checkForErrors r = OpResult.remoteErr (String.join strs)) := by
  intro r
  constructor
  · constructor
    · intro h
      by_contra hs
      unfold checkForErrors at h
      rw [if_neg hs] at h
      split at h
      · split at h
        · exact OpResult.noConfusion h
        · exact OpResult.noConfusion h
      · exact OpResult.noConfusion h
    · intro hs
      unfold checkForErrors
      rw [if_pos hs]
  · intro fields xs strs hs hb hl ha
    simp only [checkForErrors, errorsValue, if_neg hs, hb, hl, ha]

/-- Witness for C6: status 400 with errors list bad, thing gives the
combined message badthing. -/
theorem c6_primary_policy_witness :
    checkForErrors
      ⟨400, "ignored", some [("errors", Json.arr [Json.str "bad", Json.str "thing"])]⟩ =
      OpResult.remoteErr "badthing" :=
  (c6_primary_policy _).2 [("errors", Json.arr [Json.str "bad", Json.str "thing"])]
    [Json.str "bad", Json.str "thing"] ["bad", "thing"] (by decide) rfl rfl rfl

/-! ## Claim C7 -/

/-- C7: under the secondary policy a response succeeds exactly when the
status is 200, 201 or 202, and any other status yields the raw body text
verbatim as the error message. -/
theorem c7_secondary_policy :
    ∀ r : HttpResponse,
      (checkForErrorsChecks r = OpResult.ok ↔
        (r.status = 200 ∨ r.status = 201 ∨ r.status = 202)) ∧
      (¬ (r.status = 200 ∨ r.status = 201 ∨ r.status = 202) →
        checkForErrorsChecks r = OpResult.remoteErr r.body) := by
  intro r
  unfold checkForErrorsChecks
  constructor
  · by_cases h : r.status ≠ 200 ∧ r.status ≠ 201 ∧ r.status ≠ 202
    · rw [if_pos h]
      constructor
      · intro he
        exact OpResult.noConfusion he
      · intro hor
        rcases hor with h0 | h0 | h0 <;> tauto
    · rw [if_neg h]
      constructor
      · intro _
        tauto
      · intro _
        rfl
  · intro hor
    rw [if_pos (by tauto)]

/-- Witness for C7: status 500 with body server exploded. -/
theorem c7_secondary_policy_witness :
    checkForErrorsChecks ⟨500, "server exploded", none⟩ =
      OpResult.remoteErr "server exploded" :=
  (c7_secondary_policy _).2 (by decide)

/-! ## Claim C1 -/

/-- C1: the claim requires the primary normalizer to return a non-nil
generic error without crashing when a non-200 response body is not JSON or
lacks an errors field holding strings; the code instead panics through the
unchecked type assertions of lines 199-207. Each conjunct evaluates
checkForErrors at such an input: a non-JSON body, a JSON object without
errors, an errors field that is not an array, and an errors array holding a
non-string. -/
theorem c1_primary_normalizer_crash :
    checkForErrors ⟨400, "Bad Request", none⟩ = OpResult.crash ∧
    checkForErrors ⟨400, "", some []⟩ = OpResult.crash ∧
    checkForErrors ⟨400, "", some [("errors", Json.str "bad")]⟩ = OpResult.crash ∧
    checkForErrors ⟨400, "", some [("errors", Json.arr [Json.num 1])]⟩ = OpResult.crash :=
  ⟨rfl, rfl, rfl, rfl⟩

/-! ## Claim C3 -/

/-- C3: the claim requires Save (create) to treat an absent rate gate as a
no-op like the other three operations; on a client constructed with no
request-interval option the rateLimiter is nil, GetbyId, UpdatebyID and
DeletebyId proceed normally, but line 175 of Save dereferences the nil
limiter and panics. -/
theorem c3_save_crashes_without_gate :
    (initClient "key" "secret" []).rateLimiter = none ∧
    Save (initClient "key" "secret" []) "v1/domains" ⟨200, "", none⟩ = OpResult.crash ∧
    GetbyId (initClient "key" "secret" []) "v1/domains" ⟨200, "", none⟩ = OpResult.ok ∧
    UpdatebyID (initClient "key" "secret" []) "v1/domains" ⟨200, "", none⟩ = OpResult.ok ∧
    DeletebyId (initClient "key" "secret" []) "v1/domains" ⟨200, "", none⟩ = OpResult.ok :=
  ⟨rfl, rfl, by decide, by decide, rfl⟩

/-! ## Claim C2 -/

lemma requestInterval_nonneg (c : Client) (q : ℚ) (h : 0 ≤ q) :
    (RequestInterval q c).rateLimiter =
      some ⟨rateEvery (goFloatToInt64 (q * 1000)), 1⟩ := by
  unfold RequestInterval
  rw [if_pos h]

lemma requestInterval_negative (c : Client) (q : ℚ) (h : ¬ 0 ≤ q) :
    (RequestInterval q c).rateLimiter = c.rateLimiter := by
  unfold RequestInterval
  rw [if_neg h]

lemma goFloatToInt64_half_second : goFloatToInt64 ((1 : ℚ) / 2 * 1000) = 500 := by
  have h : ((1 : ℚ) / 2 * 1000) = (500 : ℚ) := by norm_num
  rw [h]
  unfold goFloatToInt64
  norm_num

lemma goFloatToInt64_zero : goFloatToInt64 ((0 : ℚ) * 1000) = 0 := by
  have h : ((0 : ℚ) * 1000) = (0 : ℚ) := by norm_num
  rw [h]
  unfold goFloatToInt64
  norm_num

/-- C2: the claim says an interval i > 0 enables a capacity-1 gate with a
refill period of i seconds; RequestInterval(0.5) actually installs
rate.NewLimiter(rate.Every(time.Duration(0.5*1000)), 1), whose refill
period is 500 nanoseconds, not the 500000000 nanoseconds of half a second,
and i = 0 installs a limiter (with the infinite rate) instead of leaving
the gate disabled, while only i < 0 leaves the gate nil. -/
theorem c2_request_interval_units :
    (RequestInterval (1 / 2) (initClient "key" "secret" [])).rateLimiter =
      some ⟨RateLimit.every 500, 1⟩ ∧
    gateMinSeparationNanos
      (RequestInterval (1 / 2) (initClient "key" "secret" [])).rateLimiter = 500 ∧
    ((1 : ℚ) / 2) * 1000000000 = 500000000 ∧
    (500 : ℤ) ≠ 500000000 ∧
    (RequestInterval 0 (initClient "key" "secret" [])).rateLimiter =
      some ⟨RateLimit.inf, 1⟩ ∧
    (RequestInterval (-1) (initClient "key" "secret" [])).rateLimiter = none := by
  refine ⟨?_, ?_, by norm_num, by decide, ?_, ?_⟩
  · rw [requestInterval_nonneg _ _ (by norm_num), goFloatToInt64_half_second]
    rfl
  · rw [requestInterval_nonneg _ _ (by norm_num), goFloatToInt64_half_second]
    rfl
  · rw [requestInterval_nonneg _ _ (by norm_num), goFloatToInt64_zero]
    rfl
  · rw [requestInterval_negative _ _ (by norm_num)]
    rfl

/-! ## Claim C4 -/

/-- C4 counterexample: v1/domains is classified primary, yet DeletebyId
normalizes a 201 response to a nil error exactly as the secondary policy
does, while the primary normalizer the claim prescribes does not return ok
on a 201 response. -/
theorem c4_delete_ignores_classification_cx :
    (resolveEndpoint "v1/domains").2 = Target.primary ∧
    DeletebyId (initClient "key" "secret" []) "v1/domains" ⟨201, "created", none⟩ =
      OpResult.ok ∧
    checkForErrors ⟨201, "created", none⟩ = OpResult.crash ∧
    DeletebyId (initClient "key" "secret" []) "v1/domains" ⟨201, "created", none⟩ ≠
      checkForErrors ⟨201, "created", none⟩ :=
  ⟨by decide, rfl, rfl, by decide⟩

/-- C4 amended: DeletebyId routes every response through the
secondary-policy normalizer regardless of the endpoint's classification,
whereas GetbyId and UpdatebyID select the normalizer matching the
classification. -/
theorem c4_delete_always_secondary_policy :
    ∀ (c : Client) (endpoint : String) (r : HttpResponse),
      DeletebyId c endpoint r = checkForErrorsChecks r ∧
      GetbyId c endpoint r =
        (if (resolveEndpoint endpoint).2 = Target.primary then checkForErrors r
         else checkForErrorsChecks r) ∧
      UpdatebyID c endpoint r =
        (if (resolveEndpoint endpoint).2 = Target.primary then checkForErrors r
         else checkForErrorsChecks r) := by
  intro c endpoint r
  refine ⟨rfl, ?_, ?_⟩
  · unfold GetbyId resolveEndpoint
    by_cases h : isSecondary endpoint <;> simp [h]
  · unfold UpdatebyID resolveEndpoint
    by_cases h : isSecondary endpoint <;> simp [h]

/-! ## Claim C9 -/

/-- C9: every constructed request uses the method mapped from its verb
(create POST, fetch GET, update PUT, delete DELETE), attaches the JSON body
only for POST and PUT, and carries the application/json content type
together with the freshly generated x-cns-security-token header. -/
theorem c9_request_construction :
    ∀ (c : Client) (now : Nat) (endpoint payload : String),
      ((saveRequest c now endpoint payload).method = "POST" ∧
        (saveRequest c now endpoint payload).body = some payload) ∧
      ((getByIdRequest c now endpoint).method = "GET" ∧
        (getByIdRequest c now endpoint).body = none) ∧
      ((updateByIdRequest c now endpoint payload).method = "PUT" ∧
        (updateByIdRequest c now endpoint payload).body = some payload) ∧
      ((deleteByIdRequest c now endpoint).method = "DELETE" ∧
        (deleteByIdRequest c now endpoint).body = none) ∧
      ((saveRequest c now endpoint payload).headers =
          [("Content-Type", "application/json"),
           ("x-cns-security-token", getToken c.apiKey c.secretKey now)] ∧
        (getByIdRequest c now endpoint).headers =
          [("Content-Type", "application/json"),
           ("x-cns-security-token", getToken c.apiKey c.secretKey now)] ∧
        (updateByIdRequest c now endpoint payload).headers =
          [("Content-Type", "application/json"),
           ("x-cns-security-token", getToken c.apiKey c.secretKey now)] ∧
        (deleteByIdRequest c now endpoint).headers =
          [("Content-Type", "application/json"),
           ("x-cns-security-token", getToken c.apiKey c.secretKey now)]) :=
  fun _ _ _ _ =>
    ⟨⟨rfl, rfl⟩, ⟨rfl, rfl⟩, ⟨rfl, rfl⟩, ⟨rfl, rfl⟩, rfl, rfl, rfl, rfl⟩

/-! ## Lemmas about decimal rendering, base64 and the token -/

lemma decList_lt (n : Nat) (h : n < 10) : decList n = [Nat.digitChar n] := by
  rw [decList]
  exact dif_pos h

lemma decList_ge (n : Nat) (h : ¬ n < 10) :
    decList n = decList (n / 10) ++ [Nat.digitChar (n % 10)] := by
  conv_lhs => rw [decList]
  rw [dif_neg h]

lemma toDigitsCore_eq_decList (fuel : Nat) :
    ∀ n acc, n < fuel → Nat.toDigitsCore 10 fuel n acc = decList n ++ acc := by
  induction fuel with
  | zero =>
    intro n acc h
    omega
  | succ fuel ih =>
    intro n acc h
    simp only [Nat.toDigitsCore]
    by_cases h0 : n / 10 = 0
    · have hn : n < 10 := by omega
      rw [if_pos h0, decList_lt n hn, Nat.mod_eq_of_lt hn]
      rfl
    · have hn : ¬ n < 10 := by omega
      rw [if_neg h0, ih (n / 10) _ (by omega), decList_ge n hn]
      simp

lemma repr_data_eq_decList (n : Nat) : (Nat.repr n).data = decList n := by
  unfold Nat.repr Nat.toDigits
  rw [toDigitsCore_eq_decList (n + 1) n [] (Nat.lt_succ_self n)]
  simp [List.asString]

lemma digitChar_injOn : ∀ a < 10, ∀ b < 10, Nat.digitChar a = Nat.digitChar b → a = b := by
  decide

lemma digitChar_ne_colon : ∀ a < 10, Nat.digitChar a ≠ ':' := by
  decide

lemma decList_ne_nil (n : Nat) : decList n ≠ [] := by
  by_cases h : n < 10
  · rw [decList_lt n h]
    simp
  · rw [decList_ge n h]
    simp

lemma colon_not_mem_decList (n : Nat) : ':' ∉ decList n := by
  induction n using Nat.strong_induction_on with
  | _ n ih =>
    by_cases h : n < 10
    · rw [decList_lt n h]
      intro hm
      simp at hm
      exact digitChar_ne_colon n h hm.symm
    · rw [decList_ge n h]
      intro hm
      rcases List.mem_append.1 hm with hm | hm
      · exact ih (n / 10) (Nat.div_lt_self (by omega) (by omega)) hm
      · simp at hm
        exact digitChar_ne_colon (n % 10) (Nat.mod_lt n (by omega)) hm.symm

lemma decList_injective : ∀ m n : Nat, decList m = decList n → m = n := by
  intro m
  induction m using Nat.strong_induction_on with
  | _ m ih =>
    intro n h
    by_cases hm : m < 10 <;> by_cases hn : n < 10
    · rw [decList_lt m hm, decList_lt n hn] at h
      simp at h
      exact digitChar_injOn m hm n hn h
    · rw [decList_lt m hm, decList_ge n hn] at h
      rcases List.exists_cons_of_ne_nil (decList_ne_nil (n / 10)) with ⟨y, ys, hy⟩
      rw [hy] at h
      simp at h
    · rw [decList_ge m hm, decList_lt n hn] at h
      rcases List.exists_cons_of_ne_nil (decList_ne_nil (m / 10)) with ⟨y, ys, hy⟩
      rw [hy] at h
      simp at h
    · rw [decList_ge m hm, decList_ge n hn] at h
      obtain ⟨h1, h2⟩ := List.append_inj' h (by simp)
      have hq : m / 10 = n / 10 :=
        ih (m / 10) (Nat.div_lt_self (by omega) (by omega)) (n / 10) h1
      have hr : m % 10 = n % 10 := by
        have h2' : Nat.digitChar (m % 10) = Nat.digitChar (n % 10) := by simpa using h2
        exact digitChar_injOn _ (Nat.mod_lt m (by omega)) _ (Nat.mod_lt n (by omega)) h2'
      omega

lemma mem_b64Alphabet_ne_colon : ∀ c ∈ b64Alphabet.data, c ≠ ':' := by
  decide

lemma b64Char_ne_colon (i : Nat) : b64Char i ≠ ':' := by
  unfold b64Char
  cases hg : b64Alphabet.data.get? i with
  | none => decide
  | some c => exact mem_b64Alphabet_ne_colon c (List.get?_mem hg)

theorem colon_not_mem_base64Chars : ∀ bs : List Nat, ':' ∉ base64Chars bs
  | b1 :: b2 :: b3 :: rest => by
    intro hm
    simp only [base64Chars, List.mem_cons] at hm
    rcases hm with h | h | h | h | h
    · exact b64Char_ne_colon _ h.symm
    · exact b64Char_ne_colon _ h.symm
    · exact b64Char_ne_colon _ h.symm
    · exact b64Char_ne_colon _ h.symm
    · exact colon_not_mem_base64Chars rest h
  | [b1, b2] => by
    intro hm
    simp only [base64Chars, List.mem_cons, List.not_mem_nil, or_false] at hm
    rcases hm with h | h | h | h
    · exact b64Char_ne_colon _ h.symm
    · exact b64Char_ne_colon _ h.symm
    · exact b64Char_ne_colon _ h.symm
    · exact absurd h (by decide)
  | [b1] => by
    intro hm
    simp only [base64Chars, List.mem_cons, List.not_mem_nil, or_false] at hm
    rcases hm with h | h | h | h
    · exact b64Char_ne_colon _ h.symm
    · exact b64Char_ne_colon _ h.symm
    · exact absurd h (by decide)
    · exact absurd h (by decide)
  | [] => by
    simp [base64Chars]

lemma takeWhile_append_colon (d r : List Char) (h : ':' ∉ d) :
    (d ++ ':' :: r).takeWhile (fun c => c != ':') = d := by
  induction d with
  | nil => simp [List.takeWhile_cons]
  | cons x xs ih =>
    have hx : x ≠ ':' := by
      intro he
      exact h (by simp [he])
    have hxs : ':' ∉ xs := fun hm => h (List.mem_cons_of_mem _ hm)
    simp [List.takeWhile_cons, hx, ih hxs]

lemma colon_block_inj (s1 s2 d1 d2 : List Char)
    (hd1 : ':' ∉ d1) (hd2 : ':' ∉ d2)
    (h : s1 ++ ':' :: d1 = s2 ++ ':' :: d2) : d1 = d2 := by
  have hrev := congrArg List.reverse h
  simp only [List.reverse_append, List.reverse_cons, List.append_assoc,
    List.singleton_append] at hrev
  have ht := congrArg (List.takeWhile (fun c => c != ':')) hrev
  rw [takeWhile_append_colon _ _ (by simpa using hd1),
    takeWhile_append_colon _ _ (by simpa using hd2)] at ht
  exact List.reverse_injective ht

lemma getToken_time_injective (k s : String) (t1 t2 : Nat)
    (h : getToken k s t1 = getToken k s t2) : t1 = t2 := by
  have hd := congrArg String.data h
  have hc : (":" : String).data = [':'] := rfl
  simp only [getToken, formatInt, String.data_append, hc, List.append_assoc,
    List.singleton_append] at hd
  have hd2 := List.append_cancel_left hd
  injection hd2 with h1 hd3
  have hr1 : ':' ∉ (Nat.repr t1).data := by
    rw [repr_data_eq_decList]
    exact colon_not_mem_decList t1
  have hr2 : ':' ∉ (Nat.repr t2).data := by
    rw [repr_data_eq_decList]
    exact colon_not_mem_decList t2
  have ht := colon_block_inj _ _ _ _ hr1 hr2 hd3
  rw [repr_data_eq_decList, repr_data_eq_decList] at ht
  exact decList_injective t1 t2 ht

/-! ## Claim C8 -/

/-- C8: the token is the apiKey, the standard-base64 HMAC-SHA1 digest of
the decimal millisecond timestamp keyed by the secret, and that timestamp,
joined by colons; and tokens generated at different milliseconds are always
distinct (the digest and timestamp fields never contain a colon, so the
trailing timestamp field is recoverable). -/
theorem c8_token_format_and_distinct :
    (∀ (apiKey secretKey : String) (t : Nat),
      getToken apiKey secretKey t =
        apiKey ++ ":" ++
          base64Encode (hmacSha1 (strBytes secretKey) (strBytes (formatInt t))) ++ ":" ++
          formatInt t) ∧
    (∀ (apiKey secretKey : String) (t1 t2 : Nat), t1 ≠ t2 →
      getToken apiKey secretKey t1 ≠ getToken apiKey secretKey t2) := by
  constructor
  · intro apiKey secretKey t
    rfl
  · intro apiKey secretKey t1 t2 hne h
    exact hne (getToken_time_injective apiKey secretKey t1 t2 h)

/-- Witness for C8 at two concrete distinct milliseconds. -/
theorem c8_token_format_and_distinct_witness :
    getToken "key" "secret" 1700000000000 ≠ getToken "key" "secret" 1700000000001 :=
  c8_token_format_and_distinct.2 "key" "secret" 1700000000000 1700000000001 (by decide)

end Constellix
